import Mathlib

/-! # Mesos scheduler messages of selenoid (`mesos/scheduler/messages.go`)

A shallow embedding of the message constructors of the Go package `scheduler`.

Conventions of the embedding

* a Go slice `[]T` is a `List T` (a nil slice and an empty slice are both `[]`:
  they have the same length and the same elements);
* a Go pointer `*T` is an `Option T`, `nil` being `none` and `&v` being `some v`;
* a Go `int` is an `Int` (the constructors store the values, no arithmetic is done);
* a Go `float64` is its IEEE 754 binary64 bit pattern;
* a Go `map[K]V` is the list of its entries together with an explicit order of
  iteration, because the order in which `range` visits a map is not specified;
* a run-time panic is the `error` branch of `Except Panic`.
-/

namespace Selenoid

/-! ## Machine model -/

/-- A Go `float64`, given by its IEEE 754 binary64 bit pattern. -/
structure Float64 where
  bits : Nat
deriving DecidableEq, Repr

/-- The rational value of a finite `float64`; `none` for infinities and NaN. -/
def Float64.toRat? (x : Float64) : Option ℚ :=
  let b : Nat := x.bits % 2 ^ 64
  let sign : ℚ := if b / 2 ^ 63 = 1 then -1 else 1
  let e : Nat := b / 2 ^ 52 % 2 ^ 11
  let m : Nat := b % 2 ^ 52
  if e = 2047 then none
  else if e = 0 then some (sign * (m : ℚ) / 2 ^ 1074)
  else some (sign * ((2 ^ 52 + m : Nat) : ℚ) * 2 ^ e / 2 ^ 1075)

/-- The Go constant `1.0` as a `float64`. -/
def Float64.one : Float64 := ⟨0x3FF0000000000000⟩

/-- Run-time panics of the Go code. -/
inductive Panic where
  | indexOutOfRange (index : Nat) (length : Nat)
deriving DecidableEq, Repr

/-- A Go map: its entries, kept in the order in which the keys were first stored. -/
structure GoMap (κ : Type) (ν : Type) where
  entries : List (κ × ν)
deriving Repr

/-- The Go expression `make(map[K]V)`. -/
def GoMap.make {κ ν : Type} : GoMap κ ν := ⟨[]⟩

/-- The Go expression `m[k]`: the stored value, or the zero value of `V` when `k` is absent. -/
def GoMap.index {κ ν : Type} [DecidableEq κ] (zero : ν) (m : GoMap κ ν) (k : κ) : ν :=
  match m.entries.find? (fun e => decide (e.1 = k)) with
  | some e => e.2
  | none => zero

/-- The Go statement `m[k] = v`: overwrite the entry of `k`, or add one. -/
def GoMap.store {κ ν : Type} [DecidableEq κ] (m : GoMap κ ν) (k : κ) (v : ν) : GoMap κ ν :=
  if m.entries.any (fun e => decide (e.1 = k)) then
    ⟨m.entries.map (fun e => if e.1 = k then (k, v) else e)⟩
  else
    ⟨m.entries ++ [(k, v)]⟩

/-- The keys of a Go map, in the order in which they were first stored. -/
def GoMap.keys {κ ν : Type} (m : GoMap κ ν) : List κ := m.entries.map Prod.fst

/-- The order in which one `for k := range m` statement visits the keys of a map.
Go leaves it unspecified; every key is visited exactly once. -/
structure RangeOrder (κ : Type) where
  visit : List κ → List κ
  perm : ∀ l, (visit l).Perm l

/-- An iteration that visits the keys in the order in which they were stored. -/
def RangeOrder.insertion {κ : Type} : RangeOrder κ := ⟨id, fun l => List.Perm.refl l⟩

/-- An iteration that visits the keys in the opposite order. -/
def RangeOrder.reversed {κ : Type} : RangeOrder κ := ⟨List.reverse, fun l => List.reverse_perm l⟩

/-! ## Data model (`messages.go`, lines 3-135) -/

structure ID where
  Value : String
deriving DecidableEq, Repr

structure PortMappings where
  ContainerPort : Int
  HostPort : Int
  Protocol : String
  Name : String
deriving DecidableEq, Repr

structure Docker where
  Image : String
  Network : String
  Privileged : Bool
  PortMappings : Option (List PortMappings)
deriving DecidableEq, Repr

structure Container where
  Type_ : String
  Docker : Docker
deriving DecidableEq, Repr

structure Scalar where
  Value : Float64
deriving DecidableEq, Repr

structure Range where
  Begin : Int
  End : Int
deriving DecidableEq, Repr

structure Ranges where
  Range : List Range
deriving DecidableEq, Repr

structure Resource where
  Name : String
  Ranges : Option Ranges
  Role : String
  Type_ : String
  Scalar : Option Scalar
deriving DecidableEq, Repr

structure Command where
  Shell : Bool
deriving DecidableEq, Repr

structure TaskInfo where
  Name : String
  TaskID : ID
  AgentID : ID
  Command : Command
  Container : Option Container
  Resources : List Resource
deriving DecidableEq, Repr

structure Launch where
  TaskInfos : List TaskInfo
deriving DecidableEq, Repr

structure FrameworkInfo where
  User : String
  Name : String
  Roles : List String
deriving DecidableEq, Repr

structure Subscribe where
  FrameworkInfo : FrameworkInfo
deriving DecidableEq, Repr

structure SubscribeMessage where
  Type_ : String
  Subscribe : Subscribe
deriving DecidableEq, Repr

structure Filters where
  RefuseSeconds : Float64
deriving DecidableEq, Repr

structure Decline where
  OfferIds : List ID
  Filters : Filters
deriving DecidableEq, Repr

structure DeclineMessage where
  FrameworkID : ID
  Type_ : String
  Decline : Decline
deriving DecidableEq, Repr

structure Operation where
  Type_ : String
  Launch : Option Launch
deriving DecidableEq, Repr

structure Accept where
  OfferIds : List ID
  Operations : Option (List Operation)
  Filters : Filters
deriving DecidableEq, Repr

structure AcceptMessage where
  FrameworkID : ID
  Type_ : String
  Accept : Accept
deriving DecidableEq, Repr

structure Acknowledge where
  AgentID : ID
  TaskID : ID
  UUID : String
deriving DecidableEq, Repr

structure AcknowledgeMessage where
  FrameworkID : ID
  Type_ : String
  Acknowledge : Acknowledge
deriving DecidableEq, Repr

structure Kill where
  TaskID : ID
deriving DecidableEq, Repr

structure KillMessage where
  FrameworkID : ID
  Type_ : String
  Kill : Kill
deriving DecidableEq, Repr

/-- Modelled from the spec: the declaration of `ResourcesForOneTask` (the spec's
Assignment) is not in `messages.go`. The fields are the ones `messages.go` reads,
with the types its uses force: `OfferId` is a key of `map[ID]bool`, `AgentId` is
stored in `TaskInfo.AgentID`, `Range` is passed as a `Range`. -/
structure ResourcesForOneTask where
  OfferId : ID
  AgentId : ID
  Range : Range
deriving DecidableEq, Repr

/-- Modelled from the spec: the declaration of `Task` is not in `messages.go`. The
fields are the ones `messages.go` reads: `TaskId` is wrapped by `ID{...}`, `Image`
is stored in `Docker.Image`, `EnableVNC` is the condition of an `if`. -/
structure Task where
  TaskId : String
  Image : String
  EnableVNC : Bool
deriving DecidableEq, Repr

/-- Modelled from the spec: the declaration of `Scheduler` is not in `messages.go`.
The only field `messages.go` reads is `FrameworkId`, stored in a field of type `ID`. -/
structure Scheduler where
  FrameworkId : ID
deriving DecidableEq, Repr

/-! ## Constructors (`messages.go`, lines 137-291) -/

def newMapping (containerPort : Int) (hostPort : Int) : PortMappings :=
  { ContainerPort := containerPort
    Name := "http"
    HostPort := hostPort
    Protocol := "tcp" }

def newPortMappings (portRange : Range) (enableVNC : Bool) : Option (List PortMappings) :=
  let portMappings := [newMapping 4444 portRange.Begin]
  let portMappings :=
    if enableVNC then portMappings ++ [newMapping 5900 portRange.End] else portMappings
  some portMappings

def newContainer (portRange : Range) (task : Task) : Option Container :=
  some
    { Type_ := "DOCKER"
      Docker :=
        { Image := task.Image
          Network := "BRIDGE"
          Privileged := true
          PortMappings := newPortMappings portRange task.EnableVNC } }

def newResourcePorts (portRange : Range) : Resource :=
  let rangePort : Range := { Begin := portRange.Begin, End := portRange.End }
  { Type_ := "RANGES"
    Name := "ports"
    Ranges := some ⟨[rangePort]⟩
    Role := "*"
    Scalar := none }

def newResourcesContainer (name : String) (value : Float64) : Resource :=
  { Type_ := "SCALAR"
    Name := name
    Scalar := some ⟨value⟩
    Ranges := none
    Role := "" }

/-- The package-level values `CpuLimit` and `MemLimit` are declared outside
`messages.go`; they are parameters here. -/
def newLaunchTaskInfo (CpuLimit MemLimit : Float64) (resource : ResourcesForOneTask)
    (task : Task) : Option Launch :=
  let taskInfo : TaskInfo :=
    { Name := "My Task"
      TaskID := ⟨task.TaskId⟩
      AgentID := resource.AgentId
      Command := ⟨false⟩
      Container := newContainer resource.Range task
      Resources :=
        [ newResourcePorts resource.Range,
          newResourcesContainer "cpus" CpuLimit,
          newResourcesContainer "mem" MemLimit ] }
  some { TaskInfos := [taskInfo] }

/-- The loop `for i, task := range tasks` of `newOperations`, from index `i` on,
with the operations appended so far. -/
def newOperationsLoop (CpuLimit MemLimit : Float64) (resources : List ResourcesForOneTask) :
    Nat → List Task → List Operation → Except Panic (List Operation)
  | _, [], operations => .ok operations
  | i, task :: rest, operations =>
    match resources.get? i with
    | none => .error (.indexOutOfRange i resources.length)
    | some r =>
      newOperationsLoop CpuLimit MemLimit resources (i + 1) rest
        (operations ++ [{ Type_ := "LAUNCH", Launch := newLaunchTaskInfo CpuLimit MemLimit r task }])

def newOperations (CpuLimit MemLimit : Float64) (resources : List ResourcesForOneTask)
    (tasks : List Task) : Except Panic (Option (List Operation)) :=
  match newOperationsLoop CpuLimit MemLimit resources 0 tasks [] with
  | .error p => .error p
  | .ok operations => .ok (some operations)

/-- The map `offersMap` of `getUniqueOfferIds` after its first loop. -/
def offersMapOf (resources : List ResourcesForOneTask) : GoMap ID Bool :=
  resources.foldl
    (fun offersMap v =>
      if !(offersMap.index false v.OfferId) then offersMap.store v.OfferId true else offersMap)
    GoMap.make

/-- The first argument is the order in which the second loop visits `offersMap`. -/
def getUniqueOfferIds (order : RangeOrder ID) (resources : List ResourcesForOneTask) : List ID :=
  let offersMap := offersMapOf resources
  (order.visit offersMap.keys).foldl (fun set k => set ++ [k]) []

/-- The fields of the composite literal are evaluated in order: `getUniqueOfferIds`
first, then `newOperations`, which can panic. -/
def newAcceptMessage (order : RangeOrder ID) (CpuLimit MemLimit : Float64)
    (scheduler : Scheduler) (resources : List ResourcesForOneTask) (tasks : List Task) :
    Except Panic AcceptMessage :=
  let offerIds := getUniqueOfferIds order resources
  match newOperations CpuLimit MemLimit resources tasks with
  | .error p => .error p
  | .ok operations =>
    .ok
      { FrameworkID := scheduler.FrameworkId
        Type_ := "ACCEPT"
        Accept := ⟨offerIds, operations, ⟨Float64.one⟩⟩ }

def newSubscribedMessage (user : String) (name : String) (roles : List String) :
    SubscribeMessage :=
  { Type_ := "SUBSCRIBE"
    Subscribe := ⟨{ User := user, Name := name, Roles := roles }⟩ }

def newAcknowledgeMessage (frameworkId : ID) (agentId : ID) (UUID : String) (taskId : ID) :
    AcknowledgeMessage :=
  { FrameworkID := frameworkId
    Type_ := "ACKNOWLEDGE"
    Acknowledge := { AgentID := agentId, TaskID := taskId, UUID := UUID } }

def newDeclineMessage (frameworkId : ID) (offerId : List ID) : DeclineMessage :=
  { FrameworkID := frameworkId
    Type_ := "DECLINE"
    Decline := { OfferIds := offerId, Filters := { RefuseSeconds := Float64.one } } }

def newKillMessage (frameworkId : ID) (taskId : String) : KillMessage :=
  { FrameworkID := frameworkId
    Type_ := "KILL"
    Kill := { TaskID := ⟨taskId⟩ } }

/-! ## Reading a message back -/

/-- The task_infos of an operations list, read in order: the `launch.task_infos`
of each operation, concatenated (a nil pointer holds none). -/
def taskInfosOf (operations : Option (List Operation)) : List TaskInfo :=
  match operations with
  | none => []
  | some ops =>
    ops.foldr
      (fun op acc =>
        match op.Launch with
        | none => acc
        | some l => l.TaskInfos ++ acc)
      []

/-- The distinct elements of a list, each at the place of its first occurrence. -/
def firstOccurrences {α : Type} [DecidableEq α] : List α → List α
  | [] => []
  | x :: xs => x :: (firstOccurrences xs).filter (fun y => decide (y ≠ x))

/-! ## Auxiliary facts -/

set_option exponentiation.threshold 2048 in
theorem Float64.toRat?_one : Float64.toRat? Float64.one = some 1 := by
  norm_num [Float64.toRat?, Float64.one]

theorem foldl_append_singleton {α : Type} (l acc : List α) :
    l.foldl (fun set k => set ++ [k]) acc = acc ++ l := by
  induction l generalizing acc with
  | nil => simp
  | cons x xs ih => simp [ih]

theorem mem_firstOccurrences {α : Type} [DecidableEq α] (a : α) (l : List α) :
    a ∈ firstOccurrences l ↔ a ∈ l := by
  induction l with
  | nil => simp [firstOccurrences]
  | cons x xs ih =>
    by_cases h : a = x
    · simp [firstOccurrences, h]
    · simp [firstOccurrences, h, ih]

theorem nodup_firstOccurrences {α : Type} [DecidableEq α] (l : List α) :
    (firstOccurrences l).Nodup := by
  induction l with
  | nil => simp [firstOccurrences]
  | cons x xs ih =>
    simp only [firstOccurrences, List.nodup_cons]
    exact ⟨by simp [List.mem_filter], ih.filter _⟩

theorem firstOccurrences_append_singleton {α : Type} [DecidableEq α] (l : List α) (x : α) :
    firstOccurrences (l ++ [x]) =
      if x ∈ l then firstOccurrences l else firstOccurrences l ++ [x] := by
  induction l with
  | nil => simp [firstOccurrences]
  | cons y ys ih =>
    simp only [List.cons_append, firstOccurrences, List.append_eq]
    rw [ih]
    by_cases hxy : x = y
    · subst hxy
      by_cases hx : x ∈ ys
      · simp [hx]
      · simp [hx, List.filter_append]
    · by_cases hx : x ∈ ys
      · simp [hx]
      · simp [hx, hxy, List.filter_append]

theorem length_firstOccurrences {α : Type} [DecidableEq α] (l : List α) :
    (firstOccurrences l).length = l.toFinset.card := by
  rw [← List.toFinset_card_of_nodup (nodup_firstOccurrences l)]
  congr 1
  ext a
  simp [mem_firstOccurrences]

theorem GoMap.index_false_iff_mem_keys {κ : Type} [DecidableEq κ] (m : GoMap κ Bool)
    (hm : ∀ e ∈ m.entries, e.2 = true) (k : κ) :
    m.index false k = true ↔ k ∈ m.keys := by
  unfold GoMap.index GoMap.keys
  cases hf : m.entries.find? (fun e => decide (e.1 = k)) with
  | none =>
    simp only [Bool.false_eq_true, false_iff, List.mem_map, not_exists, not_and]
    intro e he hk
    have := List.find?_eq_none.mp hf e he
    simp [hk] at this
  | some e =>
    have he : e ∈ m.entries := List.mem_of_find?_eq_some hf
    have hk : e.1 = k := by simpa using List.find?_some hf
    simp only [hm e he, true_iff, List.mem_map]
    exact ⟨e, he, hk⟩

theorem GoMap.store_of_not_mem_keys {κ ν : Type} [DecidableEq κ] (m : GoMap κ ν) (k : κ) (v : ν)
    (hk : k ∉ m.keys) : m.store k v = ⟨m.entries ++ [(k, v)]⟩ := by
  unfold GoMap.store
  have : m.entries.any (fun e => decide (e.1 = k)) = false := by
    rw [List.any_eq_false]
    intro e he
    simp only [decide_eq_true_eq]
    intro h
    exact hk (List.mem_map.mpr ⟨e, he, h⟩)
  simp [this]

theorem offersMapOf_append_singleton (l : List ResourcesForOneTask) (v : ResourcesForOneTask) :
    offersMapOf (l ++ [v]) =
      if !((offersMapOf l).index false v.OfferId) then (offersMapOf l).store v.OfferId true
      else offersMapOf l := by
  simp [offersMapOf, List.foldl_append]

theorem offersMapOf_spec (resources : List ResourcesForOneTask) :
    (∀ e ∈ (offersMapOf resources).entries, e.2 = true) ∧
      (offersMapOf resources).keys = firstOccurrences (resources.map (fun r => r.OfferId)) := by
  induction resources using List.reverseRecOn with
  | nil => simp [offersMapOf, GoMap.make, GoMap.keys, firstOccurrences]
  | append_singleton l v ih =>
    obtain ⟨hval, hkeys⟩ := ih
    have hmem : v.OfferId ∈ (offersMapOf l).keys ↔ v.OfferId ∈ l.map (fun r => r.OfferId) := by
      rw [hkeys, mem_firstOccurrences]
    rw [offersMapOf_append_singleton, List.map_append, List.map_singleton,
      firstOccurrences_append_singleton]
    by_cases hin : v.OfferId ∈ (offersMapOf l).keys
    · have hidx := (GoMap.index_false_iff_mem_keys _ hval v.OfferId).mpr hin
      simp only [hidx, Bool.not_true, Bool.false_eq_true, if_false, hmem.mp hin, if_true]
      exact ⟨hval, hkeys⟩
    · have hidx : (offersMapOf l).index false v.OfferId = false := by
        rw [← Bool.not_eq_true, GoMap.index_false_iff_mem_keys _ hval]
        exact hin
      have hnot : v.OfferId ∉ l.map (fun r => r.OfferId) := fun h => hin (hmem.mpr h)
      simp only [hidx, Bool.not_false, if_true, hnot, if_false,
        GoMap.store_of_not_mem_keys _ _ _ hin]
      refine ⟨?_, ?_⟩
      · intro e he
        rcases List.mem_append.mp he with h | h
        · exact hval e h
        · simp only [List.mem_singleton] at h
          rw [h]
      · simp [GoMap.keys, ← hkeys]

theorem getUniqueOfferIds_eq (order : RangeOrder ID) (resources : List ResourcesForOneTask) :
    getUniqueOfferIds order resources =
      order.visit (firstOccurrences (resources.map (fun r => r.OfferId))) := by
  simp [getUniqueOfferIds, foldl_append_singleton, (offersMapOf_spec resources).2]

theorem getUniqueOfferIds_perm (order : RangeOrder ID) (resources : List ResourcesForOneTask) :
    (getUniqueOfferIds order resources).Perm
      (firstOccurrences (resources.map (fun r => r.OfferId))) := by
  rw [getUniqueOfferIds_eq]
  exact order.perm _

/-- With enough assignments left, the loop appends one LAUNCH operation per task. -/
theorem newOperationsLoop_ok (CpuLimit MemLimit : Float64) (resources : List ResourcesForOneTask)
    (tasks : List Task) (i : Nat) (operations : List Operation)
    (h : i + tasks.length ≤ resources.length) :
    newOperationsLoop CpuLimit MemLimit resources i tasks operations =
      .ok (operations ++ List.zipWith
        (fun r task =>
          ({ Type_ := "LAUNCH", Launch := newLaunchTaskInfo CpuLimit MemLimit r task } : Operation))
        (resources.drop i) tasks) := by
  induction tasks generalizing i operations with
  | nil => simp [newOperationsLoop]
  | cons task rest ih =>
    have hi : i < resources.length := by simp at h; omega
    have hget : resources.get? i = some (resources.get ⟨i, hi⟩) := List.get?_eq_get hi
    have hdrop : resources.drop i = resources.get ⟨i, hi⟩ :: resources.drop (i + 1) :=
      List.drop_eq_getElem_cons hi
    rw [newOperationsLoop, hget]
    simp only
    rw [ih (i + 1) _ (by simp at h; omega), hdrop, List.zipWith_cons_cons, List.append_assoc]
    rfl

theorem newOperations_ok (CpuLimit MemLimit : Float64) (resources : List ResourcesForOneTask)
    (tasks : List Task) (h : tasks.length ≤ resources.length) :
    newOperations CpuLimit MemLimit resources tasks =
      .ok (some (List.zipWith
        (fun r task =>
          ({ Type_ := "LAUNCH", Launch := newLaunchTaskInfo CpuLimit MemLimit r task } : Operation))
        resources tasks)) := by
  simp [newOperations, newOperationsLoop_ok CpuLimit MemLimit resources tasks 0 [] (by omega)]

theorem newAcceptMessage_ok (order : RangeOrder ID) (CpuLimit MemLimit : Float64)
    (scheduler : Scheduler) (resources : List ResourcesForOneTask) (tasks : List Task)
    (h : tasks.length ≤ resources.length) :
    newAcceptMessage order CpuLimit MemLimit scheduler resources tasks =
      .ok
        { FrameworkID := scheduler.FrameworkId
          Type_ := "ACCEPT"
          Accept :=
            ⟨getUniqueOfferIds order resources,
              some (List.zipWith
                (fun r task =>
                  ({ Type_ := "LAUNCH"
                     Launch := newLaunchTaskInfo CpuLimit MemLimit r task } : Operation))
                resources tasks),
              ⟨Float64.one⟩⟩ } := by
  simp [newAcceptMessage, newOperations_ok CpuLimit MemLimit resources tasks h]

theorem newAcceptMessage_fields (order : RangeOrder ID) (CpuLimit MemLimit : Float64)
    (scheduler : Scheduler) (resources : List ResourcesForOneTask) (tasks : List Task)
    (msg : AcceptMessage)
    (h : newAcceptMessage order CpuLimit MemLimit scheduler resources tasks = .ok msg) :
    msg.FrameworkID = scheduler.FrameworkId ∧ msg.Type_ = "ACCEPT" ∧
      msg.Accept.OfferIds = getUniqueOfferIds order resources ∧
      msg.Accept.Filters.RefuseSeconds = Float64.one := by
  unfold newAcceptMessage at h
  cases hops : newOperations CpuLimit MemLimit resources tasks with
  | error p => simp [hops] at h
  | ok operations =>
    simp only [hops, Except.ok.injEq] at h
    subst h
    exact ⟨rfl, rfl, rfl, rfl⟩

theorem taskInfosOf_zipWith (CpuLimit MemLimit : Float64) (resources : List ResourcesForOneTask)
    (tasks : List Task) :
    (taskInfosOf (some (List.zipWith
        (fun r task =>
          ({ Type_ := "LAUNCH", Launch := newLaunchTaskInfo CpuLimit MemLimit r task } : Operation))
        resources tasks))).map (fun ti => ti.TaskID) =
      (tasks.take resources.length).map (fun task => (⟨task.TaskId⟩ : ID)) := by
  induction resources generalizing tasks with
  | nil => simp [taskInfosOf]
  | cons r rs ih =>
    cases tasks with
    | nil => simp [taskInfosOf]
    | cons t ts =>
      have := ih ts
      simp only [taskInfosOf, newLaunchTaskInfo, List.map_take] at this
      simp [taskInfosOf, newLaunchTaskInfo, this]

theorem firstOccurrences_of_forall_eq {α : Type} [DecidableEq α] (o : α) (l : List α)
    (hne : l ≠ []) (ho : ∀ x ∈ l, x = o) : firstOccurrences l = [o] := by
  cases l with
  | nil => exact absurd rfl hne
  | cons x xs =>
    have hx : x = o := ho x (List.mem_cons_self x xs)
    subst hx
    simp only [firstOccurrences, List.cons.injEq, true_and, List.filter_eq_nil_iff]
    intro y hy
    have : y = x := ho y (List.mem_cons_of_mem x ((mem_firstOccurrences y xs).mp hy))
    simp [this]

theorem perm_eq_of_length_le_one {α : Type} {l₁ l₂ : List α} (hp : l₁.Perm l₂)
    (h : l₂.length ≤ 1) : l₁ = l₂ := by
  match l₂, h with
  | [], _ => exact hp.eq_nil
  | [a], _ => exact List.perm_singleton.mp hp

/-! ## The claims -/

/-- C1: for N >= 1 assignments that all carry the offer id `o` and N tasks,
`newAcceptMessage` returns a message whose `offer_ids` is `[o]`, and the task_infos
read back from its operations, in order, are N in number and carry the task ids
`tasks[0].TaskId, ..., tasks[N-1].TaskId` in that order. -/
theorem accept_round_trip (order : RangeOrder ID) (CpuLimit MemLimit : Float64)
    (scheduler : Scheduler) (o : ID) (resources : List ResourcesForOneTask) (tasks : List Task)
    (hN : 1 ≤ resources.length) (hlen : tasks.length = resources.length)
    (ho : ∀ r ∈ resources, r.OfferId = o) :
    ∃ msg, newAcceptMessage order CpuLimit MemLimit scheduler resources tasks = .ok msg ∧
      msg.Accept.OfferIds = [o] ∧
      (taskInfosOf msg.Accept.Operations).length = resources.length ∧
      (taskInfosOf msg.Accept.Operations).map (fun ti => ti.TaskID) =
        tasks.map (fun task => (⟨task.TaskId⟩ : ID)) := by
  refine ⟨_, newAcceptMessage_ok order CpuLimit MemLimit scheduler resources tasks (by omega),
    ?_, ?_, ?_⟩
  · have hfo : firstOccurrences (resources.map (fun r => r.OfferId)) = [o] := by
      apply firstOccurrences_of_forall_eq
      · intro h
        rw [List.map_eq_nil_iff] at h
        simp [h] at hN
      · intro x hx
        obtain ⟨r, hr, rfl⟩ := List.mem_map.mp hx
        exact ho r hr
    have hp := getUniqueOfferIds_perm order resources
    rw [hfo] at hp
    exact List.perm_singleton.mp hp
  · have h := congrArg List.length (taskInfosOf_zipWith CpuLimit MemLimit resources tasks)
    simp only [List.length_map, List.length_take] at h
    simp only [h]
    omega
  · simp only [taskInfosOf_zipWith]
    rw [List.take_of_length_le (by omega)]

/-- Witness of C1: two assignments on the offer "o1" and two tasks. -/
theorem accept_round_trip_witness :
    ∃ msg,
      newAcceptMessage RangeOrder.reversed ⟨0⟩ ⟨0⟩ ⟨⟨"fw"⟩⟩
          [⟨⟨"o1"⟩, ⟨"a1"⟩, ⟨31000, 31001⟩⟩, ⟨⟨"o1"⟩, ⟨"a1"⟩, ⟨31002, 31003⟩⟩]
          [⟨"t1", "img", false⟩, ⟨"t2", "img", true⟩] = .ok msg ∧
        msg.Accept.OfferIds = [⟨"o1"⟩] ∧
        (taskInfosOf msg.Accept.Operations).length = 2 ∧
        (taskInfosOf msg.Accept.Operations).map (fun ti => ti.TaskID) = [⟨"t1"⟩, ⟨"t2"⟩] :=
  accept_round_trip RangeOrder.reversed ⟨0⟩ ⟨0⟩ ⟨⟨"fw"⟩⟩ ⟨"o1"⟩
    [⟨⟨"o1"⟩, ⟨"a1"⟩, ⟨31000, 31001⟩⟩, ⟨⟨"o1"⟩, ⟨"a1"⟩, ⟨31002, 31003⟩⟩]
    [⟨"t1", "img", false⟩, ⟨"t2", "img", true⟩] (by decide) (by decide) (by decide)

/-- C2: whatever the order of the map iteration, `getUniqueOfferIds` has no duplicate,
holds exactly the offer ids of the input assignments, and its length is the number
of distinct offer ids of the input; `newAcceptMessage` stores that list in
`Accept.offer_ids` of every message it returns, and returns one whenever there are
at least as many assignments as tasks. -/
theorem unique_offer_ids_set (order : RangeOrder ID) (resources : List ResourcesForOneTask) :
    (getUniqueOfferIds order resources).Nodup ∧
      (∀ r ∈ resources, r.OfferId ∈ getUniqueOfferIds order resources) ∧
      (∀ id ∈ getUniqueOfferIds order resources, ∃ r ∈ resources, r.OfferId = id) ∧
      (getUniqueOfferIds order resources).length =
        (resources.map (fun r => r.OfferId)).toFinset.card ∧
      (∀ CpuLimit MemLimit scheduler tasks msg,
        newAcceptMessage order CpuLimit MemLimit scheduler resources tasks = .ok msg →
          msg.Accept.OfferIds = getUniqueOfferIds order resources) ∧
      (∀ CpuLimit MemLimit scheduler tasks, tasks.length ≤ resources.length →
        ∃ msg, newAcceptMessage order CpuLimit MemLimit scheduler resources tasks = .ok msg ∧
          msg.Accept.OfferIds = getUniqueOfferIds order resources) := by
  have hp := getUniqueOfferIds_perm order resources
  refine ⟨?_, ?_, ?_, ?_, ?_, ?_⟩
  · exact hp.nodup_iff.mpr (nodup_firstOccurrences _)
  · intro r hr
    rw [hp.mem_iff, mem_firstOccurrences]
    exact List.mem_map.mpr ⟨r, hr, rfl⟩
  · intro id hid
    rw [hp.mem_iff, mem_firstOccurrences] at hid
    obtain ⟨r, hr, h⟩ := List.mem_map.mp hid
    exact ⟨r, hr, h⟩
  · rw [hp.length_eq, length_firstOccurrences]
  · intro CpuLimit MemLimit scheduler tasks msg h
    exact (newAcceptMessage_fields order CpuLimit MemLimit scheduler resources tasks msg h).2.2.1
  · intro CpuLimit MemLimit scheduler tasks h
    exact ⟨_, newAcceptMessage_ok order CpuLimit MemLimit scheduler resources tasks h, rfl⟩

/-- Witness of C2: three assignments on two offers, the map visited in reverse. -/
theorem unique_offer_ids_set_witness :
    (getUniqueOfferIds RangeOrder.reversed
        [⟨⟨"o1"⟩, ⟨"a1"⟩, ⟨1, 2⟩⟩, ⟨⟨"o2"⟩, ⟨"a2"⟩, ⟨3, 4⟩⟩, ⟨⟨"o1"⟩, ⟨"a1"⟩, ⟨5, 6⟩⟩]).Nodup ∧
      (getUniqueOfferIds RangeOrder.reversed
        [⟨⟨"o1"⟩, ⟨"a1"⟩, ⟨1, 2⟩⟩, ⟨⟨"o2"⟩, ⟨"a2"⟩, ⟨3, 4⟩⟩, ⟨⟨"o1"⟩, ⟨"a1"⟩, ⟨5, 6⟩⟩]).length = 2 ∧
      (⟨"o2"⟩ : ID) ∈ getUniqueOfferIds RangeOrder.reversed
        [⟨⟨"o1"⟩, ⟨"a1"⟩, ⟨1, 2⟩⟩, ⟨⟨"o2"⟩, ⟨"a2"⟩, ⟨3, 4⟩⟩, ⟨⟨"o1"⟩, ⟨"a1"⟩, ⟨5, 6⟩⟩] ∧
      ∃ msg,
        newAcceptMessage RangeOrder.reversed ⟨0⟩ ⟨0⟩ ⟨⟨"fw"⟩⟩
            [⟨⟨"o1"⟩, ⟨"a1"⟩, ⟨1, 2⟩⟩, ⟨⟨"o2"⟩, ⟨"a2"⟩, ⟨3, 4⟩⟩, ⟨⟨"o1"⟩, ⟨"a1"⟩, ⟨5, 6⟩⟩]
            [⟨"t1", "img", false⟩] = .ok msg ∧
          msg.Accept.OfferIds = getUniqueOfferIds RangeOrder.reversed
            [⟨⟨"o1"⟩, ⟨"a1"⟩, ⟨1, 2⟩⟩, ⟨⟨"o2"⟩, ⟨"a2"⟩, ⟨3, 4⟩⟩, ⟨⟨"o1"⟩, ⟨"a1"⟩, ⟨5, 6⟩⟩] :=
  have h := unique_offer_ids_set RangeOrder.reversed
    [⟨⟨"o1"⟩, ⟨"a1"⟩, ⟨1, 2⟩⟩, ⟨⟨"o2"⟩, ⟨"a2"⟩, ⟨3, 4⟩⟩, ⟨⟨"o1"⟩, ⟨"a1"⟩, ⟨5, 6⟩⟩]
  ⟨h.1, h.2.2.2.1.trans (by decide),
    h.2.1 ⟨⟨"o2"⟩, ⟨"a2"⟩, ⟨3, 4⟩⟩ (by decide),
    h.2.2.2.2.2 ⟨0⟩ ⟨0⟩ ⟨⟨"fw"⟩⟩ [⟨"t1", "img", false⟩] (by decide)⟩

/-- C3, as stated, fails: for two assignments on the offers "o1" and "o2", a map
iteration that visits "o2" first returns `["o2", "o1"]`, which is not the order of
first occurrence, and differs from the list returned under another iteration. -/
theorem unique_offer_ids_order_counterexample :
    getUniqueOfferIds RangeOrder.reversed
        [⟨⟨"o1"⟩, ⟨"a1"⟩, ⟨1, 2⟩⟩, ⟨⟨"o2"⟩, ⟨"a2"⟩, ⟨3, 4⟩⟩] = [⟨"o2"⟩, ⟨"o1"⟩] ∧
      firstOccurrences
        (([⟨⟨"o1"⟩, ⟨"a1"⟩, ⟨1, 2⟩⟩, ⟨⟨"o2"⟩, ⟨"a2"⟩, ⟨3, 4⟩⟩] : List ResourcesForOneTask).map
          (fun r => r.OfferId)) = [⟨"o1"⟩, ⟨"o2"⟩] ∧
      getUniqueOfferIds RangeOrder.reversed
        [⟨⟨"o1"⟩, ⟨"a1"⟩, ⟨1, 2⟩⟩, ⟨⟨"o2"⟩, ⟨"a2"⟩, ⟨3, 4⟩⟩] ≠
      firstOccurrences
        (([⟨⟨"o1"⟩, ⟨"a1"⟩, ⟨1, 2⟩⟩, ⟨⟨"o2"⟩, ⟨"a2"⟩, ⟨3, 4⟩⟩] : List ResourcesForOneTask).map
          (fun r => r.OfferId)) ∧
      getUniqueOfferIds RangeOrder.insertion
        [⟨⟨"o1"⟩, ⟨"a1"⟩, ⟨1, 2⟩⟩, ⟨⟨"o2"⟩, ⟨"a2"⟩, ⟨3, 4⟩⟩] ≠
      getUniqueOfferIds RangeOrder.reversed
        [⟨⟨"o1"⟩, ⟨"a1"⟩, ⟨1, 2⟩⟩, ⟨⟨"o2"⟩, ⟨"a2"⟩, ⟨3, 4⟩⟩] := by
  decide

/-- C3, amended: `getUniqueOfferIds` returns the distinct offer ids of the input in
the order in which the map iteration visits them: a permutation of their order of
first occurrence (so two calls return permutations of one another), equal to it when
the iteration follows insertion order; when the input has at most one distinct offer
id every call returns the first-occurrence list, so two calls agree. -/
theorem unique_offer_ids_order (order₁ order₂ : RangeOrder ID)
    (resources : List ResourcesForOneTask) :
    (getUniqueOfferIds order₁ resources).Perm
        (firstOccurrences (resources.map (fun r => r.OfferId))) ∧
      (getUniqueOfferIds order₁ resources).Perm (getUniqueOfferIds order₂ resources) ∧
      getUniqueOfferIds RangeOrder.insertion resources =
        firstOccurrences (resources.map (fun r => r.OfferId)) ∧
      ((resources.map (fun r => r.OfferId)).toFinset.card ≤ 1 →
        getUniqueOfferIds order₁ resources =
            firstOccurrences (resources.map (fun r => r.OfferId)) ∧
          getUniqueOfferIds order₁ resources = getUniqueOfferIds order₂ resources) := by
  have h₁ := getUniqueOfferIds_perm order₁ resources
  have h₂ := getUniqueOfferIds_perm order₂ resources
  refine ⟨h₁, h₁.trans h₂.symm, ?_, ?_⟩
  · rw [getUniqueOfferIds_eq]
    rfl
  · intro hcard
    rw [← length_firstOccurrences] at hcard
    have e₁ := perm_eq_of_length_le_one h₁ hcard
    have e₂ := perm_eq_of_length_le_one h₂ hcard
    exact ⟨e₁, e₁.trans e₂.symm⟩

/-- Witness of amended C3: two assignments on the single offer "o1", two iterations. -/
theorem unique_offer_ids_order_witness :
    getUniqueOfferIds RangeOrder.reversed
        [⟨⟨"o1"⟩, ⟨"a1"⟩, ⟨1, 2⟩⟩, ⟨⟨"o1"⟩, ⟨"a2"⟩, ⟨3, 4⟩⟩] =
      firstOccurrences
        (([⟨⟨"o1"⟩, ⟨"a1"⟩, ⟨1, 2⟩⟩, ⟨⟨"o1"⟩, ⟨"a2"⟩, ⟨3, 4⟩⟩] : List ResourcesForOneTask).map
          (fun r => r.OfferId)) ∧
      getUniqueOfferIds RangeOrder.reversed
        [⟨⟨"o1"⟩, ⟨"a1"⟩, ⟨1, 2⟩⟩, ⟨⟨"o1"⟩, ⟨"a2"⟩, ⟨3, 4⟩⟩] =
      getUniqueOfferIds RangeOrder.insertion
        [⟨⟨"o1"⟩, ⟨"a1"⟩, ⟨1, 2⟩⟩, ⟨⟨"o1"⟩, ⟨"a2"⟩, ⟨3, 4⟩⟩] :=
  (unique_offer_ids_order RangeOrder.reversed RangeOrder.insertion
    [⟨⟨"o1"⟩, ⟨"a1"⟩, ⟨1, 2⟩⟩, ⟨⟨"o1"⟩, ⟨"a2"⟩, ⟨3, 4⟩⟩]).2.2.2 (by decide)

/-- C4: the single TaskInfo built by `newLaunchTaskInfo` has exactly three resources,
in this order: "ports" of type "RANGES" with role "*" and the single interval
`[Range.Begin, Range.End]` of the assignment; "cpus" of type "SCALAR" with value
`CpuLimit`; "mem" of type "SCALAR" with value `MemLimit`. The two scalar resources
are the same for every other assignment and task. -/
theorem launch_resources (CpuLimit MemLimit : Float64) (resource : ResourcesForOneTask)
    (task : Task) :
    ∃ taskInfo, newLaunchTaskInfo CpuLimit MemLimit resource task = some ⟨[taskInfo]⟩ ∧
      taskInfo.Resources =
        [ { Name := "ports", Type_ := "RANGES", Role := "*",
            Ranges := some ⟨[⟨resource.Range.Begin, resource.Range.End⟩]⟩, Scalar := none },
          { Name := "cpus", Type_ := "SCALAR", Role := "",
            Ranges := none, Scalar := some ⟨CpuLimit⟩ },
          { Name := "mem", Type_ := "SCALAR", Role := "",
            Ranges := none, Scalar := some ⟨MemLimit⟩ } ] ∧
      ∀ (resource₂ : ResourcesForOneTask) (task₂ : Task),
        ∃ taskInfo₂, newLaunchTaskInfo CpuLimit MemLimit resource₂ task₂ = some ⟨[taskInfo₂]⟩ ∧
          taskInfo₂.Resources.drop 1 = taskInfo.Resources.drop 1 :=
  ⟨_, rfl, rfl, fun _ _ => ⟨_, rfl, rfl⟩⟩

/-- C5: `newPortMappings r enableVNC` returns a list whose first mapping sends container
port 4444 to host port `r.Begin`; without the flag that is the whole list; with the
flag the list has exactly two mappings, the second sending container port 5900 to
host port `r.End`. Every mapping has protocol "tcp". -/
theorem port_mappings (r : Range) :
    newPortMappings r false =
        some [{ ContainerPort := 4444, HostPort := r.Begin, Protocol := "tcp", Name := "http" }] ∧
      newPortMappings r true =
        some [{ ContainerPort := 4444, HostPort := r.Begin, Protocol := "tcp", Name := "http" },
              { ContainerPort := 5900, HostPort := r.End, Protocol := "tcp", Name := "http" }] ∧
      ∀ enableVNC : Bool, ∃ first rest, newPortMappings r enableVNC = some (first :: rest) ∧
        first.ContainerPort = 4444 ∧ first.HostPort = r.Begin ∧
        (first :: rest).length = (if enableVNC then 2 else 1) ∧
        ∀ m ∈ first :: rest, m.Protocol = "tcp" := by
  refine ⟨rfl, rfl, ?_⟩
  intro enableVNC
  cases enableVNC
  · exact ⟨_, _, rfl, rfl, rfl, rfl, by simp [newMapping]⟩
  · exact ⟨_, _, rfl, rfl, rfl, rfl, by simp [newMapping]⟩

/-- Witness of C5: the range 31000-31001 with the VNC flag set. -/
theorem port_mappings_witness :
    newPortMappings ⟨31000, 31001⟩ true =
      some [{ ContainerPort := 4444, HostPort := 31000, Protocol := "tcp", Name := "http" },
            { ContainerPort := 5900, HostPort := 31001, Protocol := "tcp", Name := "http" }] :=
  (port_mappings ⟨31000, 31001⟩).2.1

/-- C6: `newAcknowledgeMessage f a u t` has type "ACKNOWLEDGE", `acknowledge.uuid = u`,
`acknowledge.agent_id = a` and `acknowledge.task_id = t`; hence two such messages
are equal only if their agent ids, tokens and task ids are equal. -/
theorem acknowledge_echo (f a : ID) (u : String) (t : ID) :
    (newAcknowledgeMessage f a u t).Type_ = "ACKNOWLEDGE" ∧
      (newAcknowledgeMessage f a u t).Acknowledge.UUID = u ∧
      (newAcknowledgeMessage f a u t).Acknowledge.AgentID = a ∧
      (newAcknowledgeMessage f a u t).Acknowledge.TaskID = t ∧
      ∀ (f₂ a₂ : ID) (u₂ : String) (t₂ : ID),
        newAcknowledgeMessage f a u t = newAcknowledgeMessage f₂ a₂ u₂ t₂ →
          a = a₂ ∧ u = u₂ ∧ t = t₂ := by
  refine ⟨rfl, rfl, rfl, rfl, ?_⟩
  intro f₂ a₂ u₂ t₂ h
  have h₁ := congrArg (fun m => m.Acknowledge.AgentID) h
  have h₂ := congrArg (fun m => m.Acknowledge.UUID) h
  have h₃ := congrArg (fun m => m.Acknowledge.TaskID) h
  exact ⟨h₁, h₂, h₃⟩

/-- Witness of C6: one acknowledgement, compared with itself. -/
theorem acknowledge_echo_witness :
    (newAcknowledgeMessage ⟨"fw"⟩ ⟨"a1"⟩ "dG9rZW4=" ⟨"t1"⟩).Acknowledge.UUID = "dG9rZW4=" ∧
      ((⟨"a1"⟩ : ID) = ⟨"a1"⟩ ∧ "dG9rZW4=" = "dG9rZW4=" ∧ (⟨"t1"⟩ : ID) = ⟨"t1"⟩) :=
  have h := acknowledge_echo ⟨"fw"⟩ ⟨"a1"⟩ "dG9rZW4=" ⟨"t1"⟩
  ⟨h.2.1, h.2.2.2.2 ⟨"fw"⟩ ⟨"a1"⟩ "dG9rZW4=" ⟨"t1"⟩ rfl⟩

/-- C7: every Accept message returned by `newAcceptMessage` and every Decline message
built by `newDeclineMessage` has `filters.refuse_seconds` equal to the float64 `1.0`,
whose value is exactly 1, whatever the arguments; `newAcceptMessage` returns a message
whenever there are at least as many assignments as tasks. -/
theorem refuse_seconds_one (order : RangeOrder ID) (CpuLimit MemLimit : Float64)
    (scheduler : Scheduler) (resources : List ResourcesForOneTask) (tasks : List Task)
    (frameworkId : ID) (offerId : List ID) :
    Float64.toRat? Float64.one = some 1 ∧
      (newDeclineMessage frameworkId offerId).Decline.Filters.RefuseSeconds = Float64.one ∧
      (∀ msg, newAcceptMessage order CpuLimit MemLimit scheduler resources tasks = .ok msg →
        msg.Accept.Filters.RefuseSeconds = Float64.one) ∧
      (tasks.length ≤ resources.length →
        ∃ msg, newAcceptMessage order CpuLimit MemLimit scheduler resources tasks = .ok msg ∧
          msg.Accept.Filters.RefuseSeconds = Float64.one) := by
  refine ⟨Float64.toRat?_one, rfl, ?_, ?_⟩
  · intro msg h
    exact (newAcceptMessage_fields order CpuLimit MemLimit scheduler resources tasks msg h).2.2.2
  · intro h
    exact ⟨_, newAcceptMessage_ok order CpuLimit MemLimit scheduler resources tasks h, rfl⟩

/-- Witness of C7: one assignment and one task. -/
theorem refuse_seconds_one_witness :
    ∃ msg,
      newAcceptMessage RangeOrder.insertion ⟨0⟩ ⟨0⟩ ⟨⟨"fw"⟩⟩
          [⟨⟨"o1"⟩, ⟨"a1"⟩, ⟨31000, 31001⟩⟩] [⟨"t1", "img", true⟩] = .ok msg ∧
        msg.Accept.Filters.RefuseSeconds = Float64.one :=
  (refuse_seconds_one RangeOrder.insertion ⟨0⟩ ⟨0⟩ ⟨⟨"fw"⟩⟩
    [⟨⟨"o1"⟩, ⟨"a1"⟩, ⟨31000, 31001⟩⟩] [⟨"t1", "img", true⟩] ⟨"fw"⟩ []).2.2.2 (by decide)

/-- C8: the Decline, Acknowledge and Kill messages carry their `frameworkId` argument
as `framework_id` and the tags "DECLINE", "ACKNOWLEDGE" and "KILL"; every message
returned by `newAcceptMessage` carries `scheduler.FrameworkId` and the tag "ACCEPT",
and one is returned whenever there are at least as many assignments as tasks. -/
theorem framework_id_and_type (order : RangeOrder ID) (CpuLimit MemLimit : Float64)
    (scheduler : Scheduler) (resources : List ResourcesForOneTask) (tasks : List Task)
    (frameworkId : ID) (offerId : List ID) (agentId : ID) (UUID : String) (taskId : ID)
    (killTaskId : String) :
    ((newDeclineMessage frameworkId offerId).FrameworkID = frameworkId ∧
        (newDeclineMessage frameworkId offerId).Type_ = "DECLINE") ∧
      ((newAcknowledgeMessage frameworkId agentId UUID taskId).FrameworkID = frameworkId ∧
        (newAcknowledgeMessage frameworkId agentId UUID taskId).Type_ = "ACKNOWLEDGE") ∧
      ((newKillMessage frameworkId killTaskId).FrameworkID = frameworkId ∧
        (newKillMessage frameworkId killTaskId).Type_ = "KILL") ∧
      (∀ msg, newAcceptMessage order CpuLimit MemLimit scheduler resources tasks = .ok msg →
        msg.FrameworkID = scheduler.FrameworkId ∧ msg.Type_ = "ACCEPT") ∧
      (tasks.length ≤ resources.length →
        ∃ msg, newAcceptMessage order CpuLimit MemLimit scheduler resources tasks = .ok msg ∧
          msg.FrameworkID = scheduler.FrameworkId ∧ msg.Type_ = "ACCEPT") := by
  refine ⟨⟨rfl, rfl⟩, ⟨rfl, rfl⟩, ⟨rfl, rfl⟩, ?_, ?_⟩
  · intro msg h
    have hf := newAcceptMessage_fields order CpuLimit MemLimit scheduler resources tasks msg h
    exact ⟨hf.1, hf.2.1⟩
  · intro h
    exact ⟨_, newAcceptMessage_ok order CpuLimit MemLimit scheduler resources tasks h, rfl, rfl⟩

/-- Witness of C8: an Accept message for two assignments and one task. -/
theorem framework_id_and_type_witness :
    ∃ msg,
      newAcceptMessage RangeOrder.reversed ⟨0⟩ ⟨0⟩ ⟨⟨"fw-7"⟩⟩
          [⟨⟨"o1"⟩, ⟨"a1"⟩, ⟨31000, 31001⟩⟩, ⟨⟨"o2"⟩, ⟨"a2"⟩, ⟨31000, 31001⟩⟩]
          [⟨"t1", "img", false⟩] = .ok msg ∧
        msg.FrameworkID = ⟨"fw-7"⟩ ∧ msg.Type_ = "ACCEPT" :=
  (framework_id_and_type RangeOrder.reversed ⟨0⟩ ⟨0⟩ ⟨⟨"fw-7"⟩⟩
    [⟨⟨"o1"⟩, ⟨"a1"⟩, ⟨31000, 31001⟩⟩, ⟨⟨"o2"⟩, ⟨"a2"⟩, ⟨31000, 31001⟩⟩]
    [⟨"t1", "img", false⟩] ⟨"fw-7"⟩ [] ⟨"a1"⟩ "u" ⟨"t1"⟩ "t1").2.2.2.2 (by decide)

/-- C9: `newDeclineMessage` returns a message of type "DECLINE" whose
`decline.offer_ids` is the supplied list itself: same length, same order, duplicates
kept. -/
theorem decline_offer_ids (frameworkId : ID) (offerId : List ID) :
    (newDeclineMessage frameworkId offerId).Type_ = "DECLINE" ∧
      (newDeclineMessage frameworkId offerId).Decline.OfferIds = offerId ∧
      (newDeclineMessage frameworkId offerId).Decline.OfferIds.length = offerId.length ∧
      (newDeclineMessage frameworkId [⟨"o1"⟩, ⟨"o1"⟩]).Decline.OfferIds = [⟨"o1"⟩, ⟨"o1"⟩] :=
  ⟨rfl, rfl, rfl, rfl⟩

/-- C10: `newKillMessage f t` returns a message of type "KILL" whose
`kill.task_id.value` is `t`; two Kill messages built with the same framework id are
equal if and only if their task ids are equal. -/
theorem kill_task_id (f : ID) (t : String) :
    (newKillMessage f t).Type_ = "KILL" ∧
      (newKillMessage f t).Kill.TaskID.Value = t ∧
      ∀ t₂ : String, newKillMessage f t = newKillMessage f t₂ ↔ t = t₂ := by
  refine ⟨rfl, rfl, ?_⟩
  intro t₂
  constructor
  · intro h
    exact congrArg (fun m => m.Kill.TaskID.Value) h
  · intro h
    rw [h]

/-- Witness of C10: the same task id gives the same Kill message. -/
theorem kill_task_id_witness :
    (newKillMessage ⟨"fw"⟩ "t1").Kill.TaskID.Value = "t1" ∧
      newKillMessage ⟨"fw"⟩ "t1" = newKillMessage ⟨"fw"⟩ "t1" :=
  have h := kill_task_id ⟨"fw"⟩ "t1"
  ⟨h.2.1, (h.2.2 "t1").mpr rfl⟩

theorem zipWith_take_length_right {α β γ : Type} (f : α → β → γ) (l : List α) (l₂ : List β) :
    List.zipWith f (l.take l₂.length) l₂ = List.zipWith f l l₂ := by
  induction l generalizing l₂ with
  | nil => simp
  | cons a as ih =>
    cases l₂ with
    | nil => simp
    | cons b bs => simp [ih]

/-- C11: `newSubscribedMessage user name roles` has type "SUBSCRIBE" and a
framework_info holding exactly that user, that name and that list of roles, in the
same order. -/
theorem subscribe_framework_info (user name : String) (roles : List String) :
    (newSubscribedMessage user name roles).Type_ = "SUBSCRIBE" ∧
      (newSubscribedMessage user name roles).Subscribe.FrameworkInfo.User = user ∧
      (newSubscribedMessage user name roles).Subscribe.FrameworkInfo.Name = name ∧
      (newSubscribedMessage user name roles).Subscribe.FrameworkInfo.Roles = roles :=
  ⟨rfl, rfl, rfl, rfl⟩

/-- C12: `newResourcePorts` yields type "RANGES" with the ranges payload present and
the scalar payload absent, `newResourcesContainer` yields type "SCALAR" with the
scalar payload present and the ranges payload absent; so every resource of the
TaskInfo built by `newLaunchTaskInfo` has exactly one payload, matching its tag, and
the ports resource holds a single interval with begin <= end whenever the
assignment's range has Begin <= End. -/
theorem resource_tagged_union (CpuLimit MemLimit : Float64) (resource : ResourcesForOneTask)
    (task : Task) (portRange : Range) (name : String) (value : Float64) :
    ((newResourcePorts portRange).Type_ = "RANGES" ∧
        (newResourcePorts portRange).Ranges = some ⟨[⟨portRange.Begin, portRange.End⟩]⟩ ∧
        (newResourcePorts portRange).Scalar = none) ∧
      ((newResourcesContainer name value).Type_ = "SCALAR" ∧
        (newResourcesContainer name value).Scalar = some ⟨value⟩ ∧
        (newResourcesContainer name value).Ranges = none) ∧
      ∃ taskInfo, newLaunchTaskInfo CpuLimit MemLimit resource task = some ⟨[taskInfo]⟩ ∧
        (∀ r ∈ taskInfo.Resources,
          (r.Type_ = "RANGES" ∧ r.Ranges ≠ none ∧ r.Scalar = none) ∨
            (r.Type_ = "SCALAR" ∧ r.Scalar ≠ none ∧ r.Ranges = none)) ∧
        (resource.Range.Begin ≤ resource.Range.End →
          ∀ r ∈ taskInfo.Resources, ∀ ranges, r.Ranges = some ranges →
            ranges.Range.length = 1 ∧ ∀ interval ∈ ranges.Range, interval.Begin ≤ interval.End) := by
  refine ⟨⟨rfl, rfl, rfl⟩, ⟨rfl, rfl, rfl⟩, _, rfl, ?_, ?_⟩
  · intro r hr
    simp only [List.mem_cons, List.mem_singleton, List.not_mem_nil, or_false] at hr
    rcases hr with h | h | h
    · left
      subst h
      exact ⟨rfl, by simp [newResourcePorts], rfl⟩
    · right
      subst h
      exact ⟨rfl, by simp [newResourcesContainer], rfl⟩
    · right
      subst h
      exact ⟨rfl, by simp [newResourcesContainer], rfl⟩
  · intro hle r hr ranges hranges
    simp only [List.mem_cons, List.mem_singleton, List.not_mem_nil, or_false] at hr
    rcases hr with h | h | h
    · subst h
      simp only [newResourcePorts, Option.some.injEq] at hranges
      subst hranges
      simpa using hle
    · subst h
      simp [newResourcesContainer] at hranges
    · subst h
      simp [newResourcesContainer] at hranges

/-- Witness of C12: an assignment with the range 31000-31001. -/
theorem resource_tagged_union_witness :
    ∃ taskInfo,
      newLaunchTaskInfo ⟨0⟩ ⟨0⟩ ⟨⟨"o1"⟩, ⟨"a1"⟩, ⟨31000, 31001⟩⟩ ⟨"t1", "img", true⟩ =
          some ⟨[taskInfo]⟩ ∧
        (newResourcePorts ⟨31000, 31001⟩) ∈ taskInfo.Resources ∧
        ((⟨[⟨31000, 31001⟩]⟩ : Ranges).Range.length = 1 ∧
          ∀ interval ∈ (⟨[⟨31000, 31001⟩]⟩ : Ranges).Range, interval.Begin ≤ interval.End) :=
  have h := (resource_tagged_union ⟨0⟩ ⟨0⟩ ⟨⟨"o1"⟩, ⟨"a1"⟩, ⟨31000, 31001⟩⟩
    ⟨"t1", "img", true⟩ ⟨31000, 31001⟩ "cpus" ⟨0⟩).2.2
  match h with
  | ⟨taskInfo, hti, _, hranges⟩ =>
    have hmem : newResourcePorts ⟨31000, 31001⟩ ∈ taskInfo.Resources := by
      simp only [newLaunchTaskInfo, Option.some.injEq, Launch.mk.injEq, List.cons.injEq,
        and_true] at hti
      subst hti
      exact List.mem_cons_self _ _
    ⟨taskInfo, hti, hmem, hranges (by decide) _ hmem ⟨[⟨31000, 31001⟩]⟩ rfl⟩

/-- C13: for every assignment and task, the TaskInfo built by `newLaunchTaskInfo` has a
non-nil container of type "DOCKER" with `docker.image = task.Image`, network
"BRIDGE", privileged true, and a non-nil, non-empty port_mappings list equal to
`newPortMappings(assignment.Range, task.EnableVNC)`; its command has shell = false. -/
theorem launch_container (CpuLimit MemLimit : Float64) (resource : ResourcesForOneTask)
    (task : Task) :
    ∃ taskInfo container portMappings,
      newLaunchTaskInfo CpuLimit MemLimit resource task = some ⟨[taskInfo]⟩ ∧
        taskInfo.Container = some container ∧
        container.Type_ = "DOCKER" ∧
        container.Docker.Image = task.Image ∧
        container.Docker.Network = "BRIDGE" ∧
        container.Docker.Privileged = true ∧
        container.Docker.PortMappings = some portMappings ∧
        portMappings ≠ [] ∧
        container.Docker.PortMappings = newPortMappings resource.Range task.EnableVNC ∧
        taskInfo.Command.Shell = false := by
  cases hv : task.EnableVNC
  · refine ⟨_, _, [newMapping 4444 resource.Range.Begin], rfl, rfl, rfl, rfl, rfl, rfl, ?_, ?_,
      ?_, rfl⟩
    · simp [newPortMappings, hv]
    · simp
    · simp [newPortMappings, hv]
  · refine ⟨_, _, [newMapping 4444 resource.Range.Begin, newMapping 5900 resource.Range.End],
      rfl, rfl, rfl, rfl, rfl, rfl, ?_, ?_, ?_, rfl⟩
    · simp [newPortMappings, hv]
    · simp
    · simp [newPortMappings, hv]

/-- Once a task is left and every assignment is used up, the loop panics at the
index equal to the number of assignments. -/
theorem newOperationsLoop_error (CpuLimit MemLimit : Float64)
    (resources : List ResourcesForOneTask) (tasks : List Task) (i : Nat)
    (operations : List Operation) (hi : i ≤ resources.length)
    (h : resources.length < i + tasks.length) :
    newOperationsLoop CpuLimit MemLimit resources i tasks operations =
      .error (.indexOutOfRange resources.length resources.length) := by
  induction tasks generalizing i operations with
  | nil => simp at h; omega
  | cons task rest ih =>
    rcases Nat.lt_or_ge i resources.length with hlt | hge
    · have hget : resources.get? i = some (resources.get ⟨i, hlt⟩) := List.get?_eq_get hlt
      rw [newOperationsLoop, hget]
      simp only
      exact ih (i + 1) _ hlt (by simp at h; omega)
    · have heq : i = resources.length := Nat.le_antisymm hi hge
      have hget : resources.get? i = none := List.get?_eq_none.mpr hge
      rw [newOperationsLoop, hget]
      simp only [heq]

theorem newOperations_error (CpuLimit MemLimit : Float64) (resources : List ResourcesForOneTask)
    (tasks : List Task) (h : resources.length < tasks.length) :
    newOperations CpuLimit MemLimit resources tasks =
      .error (.indexOutOfRange resources.length resources.length) := by
  simp [newOperations,
    newOperationsLoop_error CpuLimit MemLimit resources tasks 0 [] (Nat.zero_le _) (by omega)]

theorem newAcceptMessage_error (order : RangeOrder ID) (CpuLimit MemLimit : Float64)
    (scheduler : Scheduler) (resources : List ResourcesForOneTask) (tasks : List Task)
    (h : resources.length < tasks.length) :
    newAcceptMessage order CpuLimit MemLimit scheduler resources tasks =
      .error (.indexOutOfRange resources.length resources.length) := by
  simp [newAcceptMessage, newOperations_error CpuLimit MemLimit resources tasks h]

/-- C14: for tasks and at least as many assignments, `newOperations` returns exactly
`len(tasks)` operations; the i-th has type "LAUNCH" and a launch holding exactly one
TaskInfo, whose task id is `tasks[i].TaskId` and whose agent id is
`resources[i].AgentId`; the assignments at index >= `len(tasks)` contribute nothing:
the result is the one obtained from the first `len(tasks)` assignments alone. -/
theorem operations_pair_by_index (CpuLimit MemLimit : Float64)
    (resources : List ResourcesForOneTask) (tasks : List Task)
    (h : tasks.length ≤ resources.length) :
    ∃ ops, newOperations CpuLimit MemLimit resources tasks = .ok (some ops) ∧
      ops.length = tasks.length ∧
      (∀ (i : Nat) (hi : i < tasks.length), ∃ op taskInfo,
        ops.get? i = some op ∧ op.Type_ = "LAUNCH" ∧ op.Launch = some ⟨[taskInfo]⟩ ∧
          taskInfo.TaskID = ⟨(tasks.get ⟨i, hi⟩).TaskId⟩ ∧
          taskInfo.AgentID = (resources.get ⟨i, Nat.lt_of_lt_of_le hi h⟩).AgentId) ∧
      newOperations CpuLimit MemLimit (resources.take tasks.length) tasks = .ok (some ops) := by
  refine ⟨_, newOperations_ok CpuLimit MemLimit resources tasks h, ?_, ?_, ?_⟩
  · simp only [List.length_zipWith]
    omega
  · intro i hi
    have hir : i < resources.length := Nat.lt_of_lt_of_le hi h
    refine ⟨⟨"LAUNCH", newLaunchTaskInfo CpuLimit MemLimit (resources.get ⟨i, hir⟩)
      (tasks.get ⟨i, hi⟩)⟩, _, ?_, rfl, rfl, rfl, rfl⟩
    rw [List.get?_eq_getElem?, List.getElem?_eq_getElem (by simp only [List.length_zipWith]; omega)]
    simp [newLaunchTaskInfo]
  · rw [newOperations_ok CpuLimit MemLimit (resources.take tasks.length) tasks
      (by simp only [List.length_take]; omega), zipWith_take_length_right]

/-- Witness of C14: three assignments and two tasks. -/
theorem operations_pair_by_index_witness :
    ∃ ops,
      newOperations ⟨0⟩ ⟨0⟩
          [⟨⟨"o1"⟩, ⟨"a1"⟩, ⟨1, 2⟩⟩, ⟨⟨"o1"⟩, ⟨"a2"⟩, ⟨3, 4⟩⟩, ⟨⟨"o2"⟩, ⟨"a3"⟩, ⟨5, 6⟩⟩]
          [⟨"t1", "img", false⟩, ⟨"t2", "img", true⟩] = .ok (some ops) ∧
        ops.length = 2 :=
  match operations_pair_by_index ⟨0⟩ ⟨0⟩
    [⟨⟨"o1"⟩, ⟨"a1"⟩, ⟨1, 2⟩⟩, ⟨⟨"o1"⟩, ⟨"a2"⟩, ⟨3, 4⟩⟩, ⟨⟨"o2"⟩, ⟨"a3"⟩, ⟨5, 6⟩⟩]
    [⟨"t1", "img", false⟩, ⟨"t2", "img", true⟩] (by decide) with
  | ⟨ops, hops, hlen, _⟩ => ⟨ops, hops, hlen⟩

/-- C15: `newOperations` and `newAcceptMessage` return without an index-out-of-range
panic if and only if `len(tasks) <= len(resources)`; with more tasks than assignments
both panic on the access `resources[i]` at `i = len(resources)`. -/
theorem operations_in_bounds_iff (order : RangeOrder ID) (CpuLimit MemLimit : Float64)
    (scheduler : Scheduler) (resources : List ResourcesForOneTask) (tasks : List Task) :
    ((∃ ops, newOperations CpuLimit MemLimit resources tasks = .ok ops) ↔
        tasks.length ≤ resources.length) ∧
      ((∃ msg, newAcceptMessage order CpuLimit MemLimit scheduler resources tasks = .ok msg) ↔
        tasks.length ≤ resources.length) ∧
      (resources.length < tasks.length →
        newOperations CpuLimit MemLimit resources tasks =
            .error (.indexOutOfRange resources.length resources.length) ∧
          newAcceptMessage order CpuLimit MemLimit scheduler resources tasks =
            .error (.indexOutOfRange resources.length resources.length)) := by
  refine ⟨⟨?_, ?_⟩, ⟨?_, ?_⟩, ?_⟩
  · rintro ⟨ops, hops⟩
    by_contra hlt
    rw [newOperations_error CpuLimit MemLimit resources tasks (by omega)] at hops
    exact Except.noConfusion hops
  · intro h
    exact ⟨_, newOperations_ok CpuLimit MemLimit resources tasks h⟩
  · rintro ⟨msg, hmsg⟩
    by_contra hlt
    rw [newAcceptMessage_error order CpuLimit MemLimit scheduler resources tasks (by omega)]
      at hmsg
    exact Except.noConfusion hmsg
  · intro h
    exact ⟨_, newAcceptMessage_ok order CpuLimit MemLimit scheduler resources tasks h⟩
  · intro h
    exact ⟨newOperations_error CpuLimit MemLimit resources tasks h,
      newAcceptMessage_error order CpuLimit MemLimit scheduler resources tasks h⟩

/-- Witness of C15: one assignment and two tasks panic at index 1. -/
theorem operations_in_bounds_iff_witness :
    newOperations ⟨0⟩ ⟨0⟩ [⟨⟨"o1"⟩, ⟨"a1"⟩, ⟨1, 2⟩⟩]
        [⟨"t1", "img", false⟩, ⟨"t2", "img", true⟩] = .error (.indexOutOfRange 1 1) ∧
      newAcceptMessage RangeOrder.insertion ⟨0⟩ ⟨0⟩ ⟨⟨"fw"⟩⟩ [⟨⟨"o1"⟩, ⟨"a1"⟩, ⟨1, 2⟩⟩]
        [⟨"t1", "img", false⟩, ⟨"t2", "img", true⟩] = .error (.indexOutOfRange 1 1) :=
  (operations_in_bounds_iff RangeOrder.insertion ⟨0⟩ ⟨0⟩ ⟨⟨"fw"⟩⟩ [⟨⟨"o1"⟩, ⟨"a1"⟩, ⟨1, 2⟩⟩]
    [⟨"t1", "img", false⟩, ⟨"t2", "img", true⟩]).2.2 (by decide)

/-- C16: for an assignment with `Range.Begin <= Range.End` and any task, with or
without the VNC flag, every host_port of `container.docker.port_mappings` of the
TaskInfo built by `newLaunchTaskInfo` lies in the interval of that TaskInfo's only
"ports" resource, which has type "RANGES" and a single interval. -/
theorem host_ports_within_ports_resource (CpuLimit MemLimit : Float64)
    (resource : ResourcesForOneTask) (task : Task)
    (hle : resource.Range.Begin ≤ resource.Range.End) :
    ∃ taskInfo container portMappings ports interval,
      newLaunchTaskInfo CpuLimit MemLimit resource task = some ⟨[taskInfo]⟩ ∧
        taskInfo.Container = some container ∧
        container.Docker.PortMappings = some portMappings ∧
        taskInfo.Resources.filter (fun r => decide (r.Name = "ports")) = [ports] ∧
        ports.Type_ = "RANGES" ∧
        ports.Ranges = some ⟨[interval]⟩ ∧
        ∀ m ∈ portMappings, interval.Begin ≤ m.HostPort ∧ m.HostPort ≤ interval.End := by
  have hfilter :
      ([newResourcePorts resource.Range, newResourcesContainer "cpus" CpuLimit,
          newResourcesContainer "mem" MemLimit].filter
        (fun r => decide (r.Name = "ports"))) = [newResourcePorts resource.Range] := by
    simp [List.filter, newResourcePorts, newResourcesContainer]
  cases hv : task.EnableVNC
  · refine ⟨_, _, [newMapping 4444 resource.Range.Begin], newResourcePorts resource.Range,
      ⟨resource.Range.Begin, resource.Range.End⟩, rfl, rfl, ?_, hfilter, rfl, rfl, ?_⟩
    · simp [newPortMappings, hv]
    · intro m hm
      simp only [List.mem_singleton] at hm
      subst hm
      exact ⟨le_refl _, hle⟩
  · refine ⟨_, _, [newMapping 4444 resource.Range.Begin, newMapping 5900 resource.Range.End],
      newResourcePorts resource.Range, ⟨resource.Range.Begin, resource.Range.End⟩,
      rfl, rfl, ?_, hfilter, rfl, rfl, ?_⟩
    · simp [newPortMappings, hv]
    · intro m hm
      simp only [List.mem_cons, List.mem_singleton, List.not_mem_nil, or_false] at hm
      rcases hm with h | h
      · subst h
        exact ⟨le_refl _, hle⟩
      · subst h
        exact ⟨hle, le_refl _⟩

/-- Witness of C16: the range 31000-31001 and a task with the VNC flag. -/
theorem host_ports_within_ports_resource_witness :
    ∃ taskInfo container portMappings ports interval,
      newLaunchTaskInfo ⟨0⟩ ⟨0⟩ ⟨⟨"o1"⟩, ⟨"a1"⟩, ⟨31000, 31001⟩⟩ ⟨"t1", "img", true⟩ =
          some ⟨[taskInfo]⟩ ∧
        taskInfo.Container = some container ∧
        container.Docker.PortMappings = some portMappings ∧
        taskInfo.Resources.filter (fun r => decide (r.Name = "ports")) = [ports] ∧
        ports.Type_ = "RANGES" ∧
        ports.Ranges = some ⟨[interval]⟩ ∧
        ∀ m ∈ portMappings, interval.Begin ≤ m.HostPort ∧ m.HostPort ≤ interval.End :=
  host_ports_within_ports_resource ⟨0⟩ ⟨0⟩ ⟨⟨"o1"⟩, ⟨"a1"⟩, ⟨31000, 31001⟩⟩
    ⟨"t1", "img", true⟩ (by decide)

/-- C17: with the VNC flag set `newPortMappings` returns two mappings, both named
"http", for container ports 4444 and 5900; their host ports are distinct if and
only if `Begin != End`, and for a single-port range both container ports are mapped
to the same host port. -/
theorem vnc_host_ports_distinct_iff (r : Range) :
    ∃ first second, newPortMappings r true = some [first, second] ∧
      first.ContainerPort = 4444 ∧ second.ContainerPort = 5900 ∧
      (first.HostPort ≠ second.HostPort ↔ r.Begin ≠ r.End) ∧
      (r.Begin = r.End → first.HostPort = second.HostPort) ∧
      first.Name = "http" ∧ second.Name = "http" :=
  ⟨newMapping 4444 r.Begin, newMapping 5900 r.End, rfl, rfl, rfl, Iff.rfl, fun h => h, rfl, rfl⟩

/-- Witness of C17: the single-port range 31000-31000. -/
theorem vnc_host_ports_distinct_iff_witness :
    ∃ first second, newPortMappings ⟨31000, 31000⟩ true = some [first, second] ∧
      first.ContainerPort = 4444 ∧ second.ContainerPort = 5900 ∧
      first.HostPort = second.HostPort :=
  match vnc_host_ports_distinct_iff ⟨31000, 31000⟩ with
  | ⟨first, second, hpm, hc₁, hc₂, _, hsame, _⟩ => ⟨first, second, hpm, hc₁, hc₂, hsame rfl⟩

theorem getUniqueOfferIds_ne_nil (order : RangeOrder ID) (resources : List ResourcesForOneTask)
    (h : resources ≠ []) : getUniqueOfferIds order resources ≠ [] := by
  intro hnil
  have hp := getUniqueOfferIds_perm order resources
  rw [hnil] at hp
  have hfo : firstOccurrences (resources.map (fun r => r.OfferId)) = [] := hp.symm.eq_nil
  cases resources with
  | nil => exact h rfl
  | cons r rs => simp [firstOccurrences] at hfo

/-- C18: from no assignment and no task `newAcceptMessage` returns a message of type
"ACCEPT" whose offer_ids list is empty and whose operations field is a non-nil
pointer to an empty list; and whenever the assignment list is non-empty, the
offer_ids of `getUniqueOfferIds`, hence of every message `newAcceptMessage` returns,
are non-empty (a message is returned when there are at least as many assignments as
tasks). -/
theorem accept_empty_and_nonempty (order : RangeOrder ID) (CpuLimit MemLimit : Float64)
    (scheduler : Scheduler) (resources : List ResourcesForOneTask) (tasks : List Task) :
    (∃ msg, newAcceptMessage order CpuLimit MemLimit scheduler [] [] = .ok msg ∧
        msg.Type_ = "ACCEPT" ∧ msg.Accept.OfferIds = [] ∧ msg.Accept.Operations = some []) ∧
      (resources ≠ [] →
        getUniqueOfferIds order resources ≠ [] ∧
          (∀ msg, newAcceptMessage order CpuLimit MemLimit scheduler resources tasks = .ok msg →
            msg.Accept.OfferIds ≠ []) ∧
          (tasks.length ≤ resources.length →
            ∃ msg, newAcceptMessage order CpuLimit MemLimit scheduler resources tasks = .ok msg ∧
              msg.Accept.OfferIds ≠ [])) := by
  refine ⟨⟨_, newAcceptMessage_ok order CpuLimit MemLimit scheduler [] [] (le_refl _), rfl, ?_,
    rfl⟩, ?_⟩
  · have hp := getUniqueOfferIds_perm order []
    exact hp.eq_nil
  · intro hne
    have hids := getUniqueOfferIds_ne_nil order resources hne
    refine ⟨hids, ?_, ?_⟩
    · intro msg hmsg
      rw [(newAcceptMessage_fields order CpuLimit MemLimit scheduler resources tasks msg
        hmsg).2.2.1]
      exact hids
    · intro hlen
      exact ⟨_, newAcceptMessage_ok order CpuLimit MemLimit scheduler resources tasks hlen, hids⟩

/-- Witness of C18: one assignment and one task. -/
theorem accept_empty_and_nonempty_witness :
    ∃ msg,
      newAcceptMessage RangeOrder.reversed ⟨0⟩ ⟨0⟩ ⟨⟨"fw"⟩⟩
          [⟨⟨"o1"⟩, ⟨"a1"⟩, ⟨31000, 31001⟩⟩] [⟨"t1", "img", false⟩] = .ok msg ∧
        msg.Accept.OfferIds ≠ [] :=
  ((accept_empty_and_nonempty RangeOrder.reversed ⟨0⟩ ⟨0⟩ ⟨⟨"fw"⟩⟩
    [⟨⟨"o1"⟩, ⟨"a1"⟩, ⟨31000, 31001⟩⟩] [⟨"t1", "img", false⟩]).2 (by decide)).2.2 (by decide)

end Selenoid
